import Mathlib

/-!
# Verification of the Precision-Baking conversion core

Shallow embedding of the conversion logic of `src/baking/baking.py`:
the ingredient/unit tables, the gram converter `convert_to_grams`
(lines 134-178), the quantity-parsing block and the line annotator
`convert_recipe_to_grams` (lines 180-230).

Modelling decisions:
* Python floats are modelled by `ℚ`; all arithmetic appearing in the
  verified claims is exact in binary floating point as well.
* Python strings are modelled by `String` / `List Char`; the inputs are
  ASCII, for which `Char.toLower` agrees with `str.lower`.
* `re.finditer` on the fixed pattern
  `([\d./\s]+)\s+(\w+(?:\s+\w+)?)\s+(?:of\s+)?(.+?)(?:,|$|\n)`
  is embedded as a backtracking matcher specialised to that pattern,
  with Python's leftmost-match / greedy / lazy semantics.  The matcher
  is only ever applied to single lines (no `'\n'` inside), where `$`
  means end of string.
-/

namespace Baking

attribute [local semireducible] Rat.mul Rat.add Rat.sub Rat.inv Rat.ofScientific

/-- Python `str.isspace`-style whitespace, the `\s` class of `re`
(ASCII part, which is all that can occur here). -/
def isPySpaceB (c : Char) : Bool :=
  c = ' ' || c = '\t' || c = '\n' || c = '\x0b' || c = '\x0c' || c = '\r'

/-- Python `str.strip()` on a list of characters. -/
def pyStripL (s : List Char) : List Char :=
  ((s.dropWhile isPySpaceB).reverse.dropWhile isPySpaceB).reverse

/-- Python `str.lower()` (ASCII). -/
def pyLowerL (s : List Char) : List Char :=
  s.map Char.toLower

/-- `ingredient.lower().strip()` as done at the top of `convert_to_grams`. -/
def pyNorm (s : String) : String :=
  String.mk (pyStripL (pyLowerL s.toList))

/-- First-match association-list lookup, modelling Python dict lookup
(keys of both tables are distinct, so first match is the match). -/
def lookupS {α : Type} : List (String × α) → String → Option α
  | [], _ => none
  | (k, v) :: r, key => if key = k then some v else lookupS r key

/-- One entry of the ingredient database: density in grams per cup at
20°C, temperature sensitivity factor, optional special counted unit. -/
structure IngredientInfo where
  density : ℚ
  temp_factor : ℚ
  unit : Option String
  deriving DecidableEq

/-- The ingredient database of `load_ingredients_db` (baking.py lines 54-80),
in source order. -/
def ingredients_db : List (String × IngredientInfo) :=
  [ ("all-purpose flour", ⟨120, (2/100), none⟩),
    ("bread flour", ⟨127, (2/100), none⟩),
    ("cake flour", ⟨112, (2/100), none⟩),
    ("whole wheat flour", ⟨130, (2/100), none⟩),
    ("granulated sugar", ⟨200, (5/1000), none⟩),
    ("brown sugar", ⟨220, (1/100), none⟩),
    ("powdered sugar", ⟨125, (5/1000), none⟩),
    ("butter", ⟨227, (5/100), none⟩),
    ("vegetable oil", ⟨224, (1/100), none⟩),
    ("milk", ⟨242, (2/100), none⟩),
    ("heavy cream", ⟨238, (2/100), none⟩),
    ("water", ⟨237, (1/100), none⟩),
    ("salt", ⟨288, (1/1000), none⟩),
    ("baking powder", ⟨192, (5/1000), none⟩),
    ("baking soda", ⟨220, (5/1000), none⟩),
    ("cocoa powder", ⟨106, (2/100), none⟩),
    ("honey", ⟨340, (3/100), none⟩),
    ("maple syrup", ⟨322, (3/100), none⟩),
    ("rolled oats", ⟨85, (1/100), none⟩),
    ("chopped nuts", ⟨113, (1/100), none⟩),
    ("chocolate chips", ⟨170, (1/100), none⟩),
    ("eggs", ⟨50, (2/100), some "each"⟩),
    ("vanilla extract", ⟨(42/10), (1/100), some "teaspoon"⟩),
    ("yeast", ⟨3, (5/1000), some "teaspoon"⟩) ]

/-- The volume-unit table of `get_conversion_factors` (baking.py lines
84-112): cups per one of the named unit, in source order. -/
def conversion_factors : List (String × ℚ) :=
  [ ("cup", 1), ("cups", 1),
    ("tablespoon", (625/10000)), ("tablespoons", (625/10000)), ("tbsp", (625/10000)),
    ("teaspoon", (208333/10000000)), ("teaspoons", (208333/10000000)), ("tsp", (208333/10000000)),
    ("fluid ounce", (125/1000)), ("fluid ounces", (125/1000)), ("fl oz", (125/1000)),
    ("milliliter", (422675/100000000)), ("milliliters", (422675/100000000)), ("ml", (422675/100000000)),
    ("liter", (422675/100000)), ("liters", (422675/100000)), ("l", (422675/100000)),
    ("pint", 2), ("pints", 2), ("pt", 2),
    ("quart", 4), ("quarts", 4), ("qt", 4),
    ("gallon", 16), ("gallons", 16), ("gal", 16) ]

/-- The special counted-unit test of baking.py lines 158-160: the unit
matches the ingredient's special unit exactly or with an "s" appended. -/
def countedMatches (info : IngredientInfo) (u : String) : Bool :=
  match info.unit with
  | some su => u = su || u = su ++ "s"
  | none => false

/-- The twelve mass-unit spellings of baking.py lines 169-176. -/
def massUnitNames : List String :=
  ["gram", "g", "grams", "kilogram", "kg", "kilograms",
   "ounce", "oz", "ounces", "pound", "lb", "pounds"]

/-- `convert_to_grams` (baking.py lines 134-178).  Argument order is the
source's: quantity, unit, ingredient, temperature. -/
def convert_to_grams (quantity : ℚ) (unit ingredient : String)
    (temperature : ℚ) : Option ℚ :=
  let ing := pyNorm ingredient
  let u := pyNorm unit
  match lookupS ingredients_db ing with
  | none => none
  | some info =>
    let temp_diff := temperature - 20
    let density_adjustment := 1 + info.temp_factor * temp_diff / 10
    let adjusted_density := info.density * density_adjustment
    if countedMatches info u then
      some (quantity * adjusted_density)
    else
      match lookupS conversion_factors u with
      | some factor => some (quantity * factor * adjusted_density)
      | none =>
        if u ∈ ["gram", "g", "grams"] then some quantity
        else if u ∈ ["kilogram", "kg", "kilograms"] then some (quantity * 1000)
        else if u ∈ ["ounce", "oz", "ounces"] then some (quantity * (2835/100))
        else if u ∈ ["pound", "lb", "pounds"] then some (quantity * (45359/100))
        else none

/-! ## The quantity-parsing block (baking.py lines 201-213) -/

/-- Python `s.split(" ", 1)` restricted to strings that do contain a
space: everything before the first space, everything after it. -/
def splitFirstSpace : List Char → List Char × List Char
  | [] => ([], [])
  | c :: r =>
    if c = ' ' then ([], r)
    else
      let p := splitFirstSpace r
      (c :: p.1, p.2)

/-- Python `s.split(sep)` for a one-character separator: all parts,
empty parts preserved; the result is always nonempty. -/
def splitAllChar (sep : Char) : List Char → List (List Char)
  | [] => [[]]
  | c :: r =>
    if c = sep then [] :: splitAllChar sep r
    else
      match splitAllChar sep r with
      | [] => [[c]]
      | h :: t => (c :: h) :: t

/-- Value of a list of decimal digit characters read left to right. -/
def digitsVal (l : List Char) : ℕ :=
  l.foldl (fun acc c => acc * 10 + (c.toNat - 48)) 0

/-- Numeric value of a digits-and-dot string (the shapes accepted by
`pyFloat`). -/
def floatVal (t : List Char) : ℚ :=
  match splitAllChar '.' t with
  | [ip] => digitsVal ip
  | [ip, fp] => (digitsVal ip : ℚ) + (digitsVal fp : ℚ) / 10 ^ fp.length
  | _ => 0

/-- Python `float(s)` restricted to the character set `[\d./\s]` that the
quantity group of the regex can produce: strip whitespace, then accept a
nonempty string of digits with at most one dot and at least one digit. -/
def pyFloat (s : List Char) : Option ℚ :=
  let t := pyStripL s
  if t.all (fun c => c.isDigit || c = '.')
      && (t.filter (fun c => c = '.')).length ≤ 1
      && t.any Char.isDigit then
    some (floatVal t)
  else none

/-- The quantity-string parsing of baking.py lines 202-213 (after the
`strip` of line 201), with every caught exception (`ValueError` from
`float` or tuple unpacking, `ZeroDivisionError`) mapped to `none`. -/
def parse_quantity (s : List Char) : Option ℚ :=
  if '/' ∈ s then
    if ' ' ∈ s then
      let p := splitFirstSpace s
      match splitAllChar '/' p.2 with
      | [num, denom] =>
        match pyFloat p.1, pyFloat num, pyFloat denom with
        | some w, some n, some d => if d = 0 then none else some (w + n / d)
        | _, _, _ => none
      | _ => none
    else
      match splitAllChar '/' s with
      | [num, denom] =>
        match pyFloat num, pyFloat denom with
        | some n, some d => if d = 0 then none else some (n / d)
        | _, _ => none
      | _ => none
  else pyFloat s

/-! ## The regex matcher

Backtracking matcher for the fixed pattern
`([\d./\s]+)\s+(\w+(?:\s+\w+)?)\s+(?:of\s+)?(.+?)(?:,|$|\n)`,
written in continuation-passing style over `Option` so that failure of a
continuation backtracks to the next alternative, exactly like the Python
`re` engine's ordered backtracking. -/

/-- The `[\d./\s]` class of the quantity group. -/
def isQtyChar (c : Char) : Bool :=
  c.isDigit || c = '.' || c = '/' || isPySpaceB c

/-- The `\w` class (ASCII). -/
def isWordChar (c : Char) : Bool :=
  c.isAlphanum || c = '_'

/-- First alternative that succeeds, in order. -/
def firstSome {α β : Type} : List α → (α → Option β) → Option β
  | [], _ => none
  | a :: l, f =>
    match f a with
    | some b => some b
    | none => firstSome l f

/-- All splits `(p, rest)` of `s` with `p` a nonempty run of characters
satisfying `cls` taken from the front, shortest first. -/
def prefixesAsc (cls : Char → Bool) : List Char → List (List Char × List Char)
  | [] => []
  | c :: r =>
    if cls c then
      ([c], r) :: (prefixesAsc cls r).map (fun q => (c :: q.1, q.2))
    else []

/-- The splits tried by a greedy `X+`: longest first. -/
def plusSplits (cls : Char → Bool) (s : List Char) :
    List (List Char × List Char) :=
  (prefixesAsc cls s).reverse

/-- The unit group `(\w+(?:\s+\w+)?)`: greedy word, optionally followed
by whitespace and a second greedy word. -/
def matchUnitPart {β : Type} (s : List Char)
    (k : List Char → List Char → Option β) : Option β :=
  firstSome (plusSplits isWordChar s) fun p1 =>
    match (firstSome (plusSplits isPySpaceB p1.2) fun p2 =>
            firstSome (plusSplits isWordChar p2.2) fun p3 =>
              k (p1.1 ++ p2.1 ++ p3.1) p3.2) with
    | some b => some b
    | none => k p1.1 p1.2

/-- The optional `(?:of\s+)?`: greedy, so the consuming branch is tried
before the empty one. -/
def matchOfPart {β : Type} (s : List Char) (k : List Char → Option β) :
    Option β :=
  match (match s with
         | 'o' :: 'f' :: r =>
           firstSome (plusSplits isPySpaceB r) fun p => k p.2
         | _ => none) with
  | some b => some b
  | none => k s

/-- The lazy tail `(.+?)(?:,|$|\n)` of the pattern, on a line (no `'\n'`
present, so `$` is end of string): grow the lazy group one character at
a time, testing the tail after each step; a `','` is consumed by the
match, end of string is not.  Returns the group and the rest after the
whole match. -/
def lazyTail (revAcc s : List Char) : Option (List Char × List Char) :=
  match s with
  | [] => none
  | c :: r =>
    if c = '\n' then none
    else
      let acc := c :: revAcc
      match r with
      | ',' :: r2 => some (acc.reverse, r2)
      | [] => some (acc.reverse, [])
      | _ => lazyTail acc r

/-- One match of the ingredient pattern: the three groups and the full
matched substring `match.group(0)`. -/
structure RegexMatch where
  g1 : List Char
  g2 : List Char
  g3 : List Char
  full : List Char
  deriving DecidableEq

/-- Try to match the ingredient pattern at the start of `s`. -/
def matchAt (s : List Char) : Option RegexMatch :=
  let res : Option (List Char × List Char × List Char × Nat) :=
    firstSome (plusSplits isQtyChar s) fun p1 =>
      firstSome (plusSplits isPySpaceB p1.2) fun p2 =>
        matchUnitPart p2.2 fun g2 r3 =>
          firstSome (plusSplits isPySpaceB r3) fun p4 =>
            matchOfPart p4.2 fun r5 =>
              match lazyTail [] r5 with
              | some (g3, rest) => some (p1.1, g2, g3, rest.length)
              | none => none
  match res with
  | some (g1, g2, g3, restLen) =>
    some ⟨g1, g2, g3, s.take (s.length - restLen)⟩
  | none => none

/-- All matches of `re.finditer`: scan left to right, restart after each
match.  The fuel is the length of the scanned string; every match
consumes at least one character, so it never runs out. -/
def findMatchesGo : ℕ → List Char → List RegexMatch
  | 0, _ => []
  | fuel + 1, s =>
    match s with
    | [] => []
    | _ :: r =>
      match matchAt s with
      | some m => m :: findMatchesGo fuel (s.drop (max m.full.length 1))
      | none => findMatchesGo fuel r

def findMatches (s : List Char) : List RegexMatch :=
  findMatchesGo s.length s

/-! ## Rounding and formatting (baking.py lines 219-222) -/

/-- Floor of a rational, avoiding any typeclass indirection. -/
def ratFloor (q : ℚ) : ℤ :=
  Int.fdiv q.num q.den

/-- Round-half-to-even to an integer, as Python's `round`. -/
def roundHalfEven (q : ℚ) : ℤ :=
  let f := ratFloor q
  let r := q - f
  if r < 1 / 2 then f
  else if 1 / 2 < r then f + 1
  else if f % 2 = 0 then f else f + 1

/-- Python `round(x, 1)` on the exact rational model. -/
def pyRound1 (q : ℚ) : ℚ :=
  (roundHalfEven (q * 10) : ℚ) / 10

/-- The decimal digit character for `n % 10`. -/
def digitChar (n : ℕ) : Char :=
  if n % 10 = 0 then '0'
  else if n % 10 = 1 then '1'
  else if n % 10 = 2 then '2'
  else if n % 10 = 3 then '3'
  else if n % 10 = 4 then '4'
  else if n % 10 = 5 then '5'
  else if n % 10 = 6 then '6'
  else if n % 10 = 7 then '7'
  else if n % 10 = 8 then '8'
  else '9'

def natCharsAux : ℕ → ℕ → List Char
  | 0, _ => []
  | fuel + 1, n =>
    if n = 0 then [] else natCharsAux fuel (n / 10) ++ [digitChar n]

/-- Decimal digits of a natural number. -/
def natChars (n : ℕ) : List Char :=
  if n = 0 then ['0'] else natCharsAux (n + 1) n

/-- Python `str` of a float holding exactly `t` tenths (the shape every
value has after `round(x, 1)`): always one digit after the dot. -/
def formatTenths (t : ℤ) : List Char :=
  (if t < 0 then ['-'] else []) ++
    natChars (t.natAbs / 10) ++ '.' :: [digitChar t.natAbs]

/-- The text Python's f-string produces for the rounded gram value. -/
def formatGrams (q : ℚ) : List Char :=
  formatTenths (ratFloor (q * 10))

/-! ## The line annotator (baking.py lines 180-230) -/

/-- The body of the per-match loop (baking.py lines 197-226): strip and
parse the quantity group, attempt the gram conversion, and on success
replace the first occurrence of the full matched text by itself followed
by the annotation; any failure leaves the line untouched. -/
def replace1 (old new : List Char) : List Char → List Char
  | [] => if old.isPrefixOf ([] : List Char) then new else []
  | c :: r =>
    if old.isPrefixOf (c :: r) then new ++ (c :: r).drop old.length
    else c :: replace1 old new r

def applyMatch (temperature : ℚ) (modified : List Char) (m : RegexMatch) :
    List Char :=
  match parse_quantity (pyStripL m.g1) with
  | none => modified
  | some quantity =>
    match convert_to_grams quantity (String.mk m.g2) (String.mk m.g3)
        temperature with
    | none => modified
    | some grams =>
      let repl := m.full ++ ' ' :: '(' ::
        (formatGrams (pyRound1 grams) ++ ['g', ')'])
      replace1 m.full repl modified

/-- Process one non-blank line: fold the per-match loop over all regex
matches found on the original line. -/
def annotateLine (temperature : ℚ) (line : List Char) : List Char :=
  (findMatches line).foldl (applyMatch temperature) line

/-- Per-line dispatch of baking.py lines 188-228: blank lines pass
through unchanged. -/
def procLine (temperature : ℚ) (line : List Char) : List Char :=
  if pyStripL line = [] then line else annotateLine temperature line

/-- Python `text.split("\n")`. -/
def splitNl (s : List Char) : List (List Char) :=
  splitAllChar '\n' s

/-- Python `"\n".join(lines)`. -/
def joinNl : List (List Char) → List Char
  | [] => []
  | [l] => l
  | l :: ls => l ++ '\n' :: joinNl ls

/-- `convert_recipe_to_grams` (baking.py lines 180-230): strip the whole
text, split into lines, annotate each non-blank line, join back. -/
def convert_recipe_to_grams (recipe_text : String) (temperature : ℚ) :
    String :=
  String.mk (joinNl ((splitNl (pyStripL recipe_text.toList)).map
    (procLine temperature)))

/-- Number of lines of a string, Python-`split("\n")` style. -/
def countLines (s : String) : ℕ :=
  (splitNl s.toList).length

/-- Substring occurrence test on character lists. -/
def listContainsSub (sub : List Char) : List Char → Bool
  | [] => sub.isPrefixOf ([] : List Char)
  | c :: r => sub.isPrefixOf (c :: r) || listContainsSub sub r

/-- Boolean substring test (`sub in s` in Python). -/
def strContainsB (s sub : String) : Bool :=
  listContainsSub sub.toList s.toList

/-! ## Supporting lemmas -/

theorem lookupS_mem {α : Type} (l : List (String × α)) (key : String) (v : α)
    (h : lookupS l key = some v) : (key, v) ∈ l := by
  induction l with
  | nil => simp [lookupS] at h
  | cons p r ih =>
    obtain ⟨k, w⟩ := p
    by_cases hk : key = k
    · subst hk
      simp [lookupS] at h
      simp [h]
    · simp [lookupS, hk] at h
      exact List.mem_cons_of_mem _ (ih h)

/-- Every key of the ingredient database is already normalised:
lower-casing and stripping it is the identity. -/
theorem db_keys_norm : ∀ p ∈ ingredients_db, pyNorm p.1 = p.1 := by decide

/-- No ingredient's counted unit matches the unit "cup". -/
theorem db_counted_cup :
    ∀ p ∈ ingredients_db, countedMatches p.2 "cup" = false := by decide

theorem cf_cup : lookupS conversion_factors "cup" = some 1 := by decide

theorem norm_cup : pyNorm "cup" = "cup" := by decide

/-- No ingredient's counted unit matches any mass-unit spelling. -/
theorem db_counted_mass :
    ∀ p ∈ ingredients_db, ∀ u ∈ massUnitNames,
      countedMatches p.2 u = false := by decide

/-- No mass-unit spelling is a key of the volume-unit table. -/
theorem cf_mass_none :
    ∀ u ∈ massUnitNames, lookupS conversion_factors u = none := by decide

/-- When the counted-unit branch and the volume branch both miss, the
converter reduces to the mass-unit chain of baking.py lines 169-178. -/
theorem convert_mass_eval (q temp : ℚ) (unit ingredient : String)
    (info : IngredientInfo)
    (hing : lookupS ingredients_db (pyNorm ingredient) = some info)
    (hcm : countedMatches info (pyNorm unit) = false)
    (hcf : lookupS conversion_factors (pyNorm unit) = none) :
    convert_to_grams q unit ingredient temp =
      (if pyNorm unit ∈ ["gram", "g", "grams"] then some q
       else if pyNorm unit ∈ ["kilogram", "kg", "kilograms"] then
         some (q * 1000)
       else if pyNorm unit ∈ ["ounce", "oz", "ounces"] then
         some (q * (2835/100))
       else if pyNorm unit ∈ ["pound", "lb", "pounds"] then
         some (q * (45359/100))
       else none) := by
  simp only [convert_to_grams, hing, hcm, hcf, Bool.false_eq_true, if_false]

theorem splitFirstSpace_append (a b : List Char) (ha : ' ' ∉ a) :
    splitFirstSpace (a ++ ' ' :: b) = (a, b) := by
  induction a with
  | nil => simp [splitFirstSpace]
  | cons c r ih =>
    have hc : ¬ c = ' ' := fun e => ha (e ▸ List.mem_cons_self c r)
    have ih' := ih (fun hm => ha (List.mem_cons_of_mem _ hm))
    simp [splitFirstSpace, hc, ih']

theorem splitAllChar_not_mem (sep : Char) (l : List Char) (h : sep ∉ l) :
    splitAllChar sep l = [l] := by
  induction l with
  | nil => rfl
  | cons c r ih =>
    have hc : ¬ c = sep := fun e => h (e ▸ List.mem_cons_self c r)
    have ih' := ih (fun hm => h (List.mem_cons_of_mem _ hm))
    simp [splitAllChar, hc, ih']

theorem splitAllChar_single_sep (sep : Char) (a b : List Char)
    (ha : sep ∉ a) (hb : sep ∉ b) :
    splitAllChar sep (a ++ sep :: b) = [a, b] := by
  induction a with
  | nil => simp [splitAllChar, splitAllChar_not_mem sep b hb]
  | cons c r ih =>
    have hc : ¬ c = sep := fun e => ha (e ▸ List.mem_cons_self c r)
    have ih' := ih (fun hm => ha (List.mem_cons_of_mem _ hm))
    simp [splitAllChar, hc, ih']

theorem splitAllChar_ne_nil (sep : Char) (s : List Char) :
    splitAllChar sep s ≠ [] := by
  cases s with
  | nil => simp [splitAllChar]
  | cons c r =>
    by_cases hc : c = sep
    · simp [splitAllChar, hc]
    · cases hsp : splitAllChar sep r with
      | nil => simp [splitAllChar, hc, hsp]
      | cons h t => simp [splitAllChar, hc, hsp]

theorem sep_not_mem_of_mem_splitAllChar (sep : Char) :
    ∀ (s l : List Char), l ∈ splitAllChar sep s → sep ∉ l := by
  intro s
  induction s with
  | nil =>
    intro l hl
    simp [splitAllChar] at hl
    subst hl
    simp
  | cons c r ih =>
    intro l hl
    by_cases hc : c = sep
    · rw [splitAllChar, if_pos hc] at hl
      rcases List.mem_cons.mp hl with rfl | h1
      · simp
      · exact ih l h1
    · cases hsp : splitAllChar sep r with
      | nil => exact absurd hsp (splitAllChar_ne_nil sep r)
      | cons hd t =>
        rw [splitAllChar, if_neg hc, hsp] at hl
        rcases List.mem_cons.mp hl with rfl | h1
        · intro hmem
          rcases List.mem_cons.mp hmem with h2 | h2
          · exact hc h2.symm
          · have hhd : hd ∈ splitAllChar sep r := by
              rw [hsp]; exact List.mem_cons_self hd t
            exact ih hd hhd h2
        · have hl' : l ∈ splitAllChar sep r := by
            rw [hsp]; exact List.mem_cons_of_mem hd h1
          exact ih l hl'

theorem splitAllChar_append (sep : Char) (a s : List Char)
    (ha : sep ∉ a) (hd : List Char) (t : List (List Char))
    (hs : splitAllChar sep s = hd :: t) :
    splitAllChar sep (a ++ s) = (a ++ hd) :: t := by
  induction a with
  | nil => simpa using hs
  | cons c r ih =>
    have hc : ¬ c = sep := fun e => ha (e ▸ List.mem_cons_self c r)
    have ih' := ih (fun hm => ha (List.mem_cons_of_mem _ hm))
    simp [splitAllChar, hc, ih']

theorem splitNl_join : ∀ (L : List (List Char)), L ≠ [] →
    (∀ l ∈ L, ('\n' : Char) ∉ l) → splitNl (joinNl L) = L := by
  intro L
  induction L with
  | nil => intro h; exact absurd rfl h
  | cons l ls ih =>
    intro _ hnl
    cases ls with
    | nil =>
      show splitAllChar '\n' (joinNl [l]) = [l]
      have hj : joinNl [l] = l := rfl
      rw [hj]
      exact splitAllChar_not_mem '\n' l (hnl l (List.mem_cons_self _ _))
    | cons l2 ls2 =>
      have hjoin : joinNl (l :: l2 :: ls2) = l ++ '\n' :: joinNl (l2 :: ls2) :=
        rfl
      have ihr : splitAllChar '\n' (joinNl (l2 :: ls2)) = l2 :: ls2 :=
        ih (by simp) (fun x hx => hnl x (List.mem_cons_of_mem _ hx))
      have h2 : splitAllChar '\n' ('\n' :: joinNl (l2 :: ls2)) =
          [] :: l2 :: ls2 := by
        rw [splitAllChar, if_pos rfl, ihr]
      show splitAllChar '\n' (joinNl (l :: l2 :: ls2)) = l :: l2 :: ls2
      rw [hjoin,
        splitAllChar_append '\n' l _ (hnl l (List.mem_cons_self _ _)) []
          (l2 :: ls2) h2]
      simp

theorem digitChar_ne_newline (n : ℕ) : digitChar n ≠ '\n' := by
  unfold digitChar
  split_ifs <;> decide

theorem natCharsAux_ne_newline (fuel : ℕ) :
    ∀ (n : ℕ), ∀ c ∈ natCharsAux fuel n, c ≠ '\n' := by
  induction fuel with
  | zero => intro n c hc; simp [natCharsAux] at hc
  | succ fuel ih =>
    intro n c hc
    by_cases hn : n = 0
    · simp [natCharsAux, hn] at hc
    · rw [natCharsAux, if_neg hn] at hc
      rcases List.mem_append.mp hc with h1 | h1
      · exact ih (n / 10) c h1
      · rcases List.mem_singleton.mp h1 with rfl
        exact digitChar_ne_newline n

theorem natChars_ne_newline (n : ℕ) : ∀ c ∈ natChars n, c ≠ '\n' := by
  intro c hc
  unfold natChars at hc
  split at hc
  · rcases List.mem_singleton.mp hc with rfl
    decide
  · exact natCharsAux_ne_newline (n + 1) n c hc

theorem formatTenths_ne_newline (t : ℤ) :
    ∀ c ∈ formatTenths t, c ≠ '\n' := by
  intro c hc
  unfold formatTenths at hc
  rcases List.mem_append.mp hc with h1 | h1
  · rcases List.mem_append.mp h1 with h2 | h2
    · by_cases ht : t < 0
      · rw [if_pos ht] at h2
        rcases List.mem_singleton.mp h2 with rfl
        decide
      · rw [if_neg ht] at h2
        exact absurd h2 (List.not_mem_nil c)
    · exact natChars_ne_newline _ c h2
  · rcases List.mem_cons.mp h1 with rfl | h3
    · decide
    · rcases List.mem_singleton.mp h3 with rfl
      exact digitChar_ne_newline _

theorem formatGrams_ne_newline (q : ℚ) :
    ∀ c ∈ formatGrams q, c ≠ '\n' :=
  formatTenths_ne_newline _

theorem matchAt_full_take (s : List Char) (m : RegexMatch)
    (h : matchAt s = some m) : ∃ k, m.full = s.take k := by
  simp only [matchAt] at h
  split at h
  · obtain rfl := Option.some_injective _ h.symm
    exact ⟨_, rfl⟩
  · exact absurd h (by simp)

theorem findMatchesGo_subset (fuel : ℕ) :
    ∀ (s : List Char) (m : RegexMatch), m ∈ findMatchesGo fuel s →
      ∀ c ∈ m.full, c ∈ s := by
  induction fuel with
  | zero => intro s m hm; simp [findMatchesGo] at hm
  | succ fuel ih =>
    intro s m hm c hc
    cases s with
    | nil => simp [findMatchesGo] at hm
    | cons c0 r =>
      cases hma : matchAt (c0 :: r) with
      | none =>
        rw [findMatchesGo, hma] at hm
        exact List.mem_cons_of_mem _ (ih r m hm c hc)
      | some m0 =>
        rw [findMatchesGo, hma] at hm
        rcases List.mem_cons.mp hm with rfl | hm2
        · obtain ⟨k, hk⟩ := matchAt_full_take _ _ hma
          rw [hk] at hc
          exact List.take_subset k (c0 :: r) hc
        · exact List.drop_subset _ _ (ih _ m hm2 c hc)

theorem replace1_pred (p : Char → Prop) (old new : List Char)
    (hnew : ∀ c ∈ new, p c) :
    ∀ s, (∀ c ∈ s, p c) → ∀ c ∈ replace1 old new s, p c := by
  intro s
  induction s with
  | nil =>
    intro _ c hc
    unfold replace1 at hc
    split at hc
    · exact hnew c hc
    · simp at hc
  | cons c0 r ih =>
    intro hs c hc
    unfold replace1 at hc
    split at hc
    · rcases List.mem_append.mp hc with h1 | h1
      · exact hnew c h1
      · exact hs c (List.drop_subset _ _ h1)
    · rcases List.mem_cons.mp hc with rfl | h1
      · exact hs c (List.mem_cons_self _ _)
      · exact ih (fun x hx => hs x (List.mem_cons_of_mem _ hx)) c h1

theorem applyMatch_ne_newline (temperature : ℚ) (modified : List Char)
    (m : RegexMatch) (hfull : ∀ c ∈ m.full, c ≠ '\n')
    (hmod : ∀ c ∈ modified, c ≠ '\n') :
    ∀ c ∈ applyMatch temperature modified m, c ≠ '\n' := by
  intro c hc
  unfold applyMatch at hc
  split at hc
  · exact hmod c hc
  · split at hc
    · exact hmod c hc
    · refine replace1_pred (fun c => c ≠ '\n') m.full _ ?_ modified hmod c hc
      intro x hx
      rcases List.mem_append.mp hx with h1 | h1
      · exact hfull x h1
      · rcases List.mem_cons.mp h1 with rfl | h2
        · decide
        · rcases List.mem_cons.mp h2 with rfl | h3
          · decide
          · rcases List.mem_append.mp h3 with h4 | h4
            · exact formatGrams_ne_newline _ x h4
            · rcases List.mem_cons.mp h4 with rfl | h5
              · decide
              · rcases List.mem_singleton.mp h5 with rfl
                decide

theorem foldl_applyMatch_ne_newline (temperature : ℚ) :
    ∀ (ms : List RegexMatch) (acc : List Char),
      (∀ m ∈ ms, ∀ c ∈ m.full, c ≠ '\n') →
      (∀ c ∈ acc, c ≠ '\n') →
      ∀ c ∈ ms.foldl (applyMatch temperature) acc, c ≠ '\n' := by
  intro ms
  induction ms with
  | nil => intro acc _ hacc; simpa using hacc
  | cons m ms ih =>
    intro acc hms hacc
    rw [List.foldl_cons]
    exact ih _ (fun m' hm' => hms m' (List.mem_cons_of_mem _ hm'))
      (applyMatch_ne_newline temperature acc m
        (hms m (List.mem_cons_self _ _)) hacc)

theorem annotateLine_ne_newline (temperature : ℚ) (line : List Char)
    (h : ∀ c ∈ line, c ≠ '\n') :
    ∀ c ∈ annotateLine temperature line, c ≠ '\n' := by
  unfold annotateLine findMatches
  exact foldl_applyMatch_ne_newline temperature
    (findMatchesGo line.length line) line
    (fun m hm c hc => h c (findMatchesGo_subset line.length line m hm c hc)) h

theorem procLine_ne_newline (temperature : ℚ) (line : List Char)
    (h : ∀ c ∈ line, c ≠ '\n') :
    ∀ c ∈ procLine temperature line, c ≠ '\n' := by
  unfold procLine
  split
  · exact h
  · exact annotateLine_ne_newline temperature line h

/-- The lines of the annotator's output are exactly the per-line images
of the lines of the (already stripped) input. -/
theorem recipe_lines (text : String) (temperature : ℚ)
    (h : pyStripL text.toList = text.toList) :
    splitNl (convert_recipe_to_grams text temperature).toList =
      (splitNl text.toList).map (procLine temperature) := by
  have h0 : (convert_recipe_to_grams text temperature).toList =
      joinNl ((splitNl (pyStripL text.toList)).map (procLine temperature)) :=
    rfl
  rw [h0, h]
  apply splitNl_join
  · intro hmap
    exact splitAllChar_ne_nil '\n' text.toList (List.map_eq_nil_iff.mp hmap)
  · intro l hl
    rcases List.mem_map.mp hl with ⟨l0, hl0, rfl⟩
    have hn0 : ∀ c ∈ l0, c ≠ '\n' := by
      intro c hc e
      subst e
      exact sep_not_mem_of_mem_splitAllChar '\n' text.toList l0 hl0 hc
    intro hmem
    exact procLine_ne_newline temperature l0 hn0 '\n' hmem rfl

/-! ## The claims -/

/-- C1: for every ingredient name present in the ingredient table and
every positive quantity `q`, converting with unit "cup" at temperature
20 returns exactly `q` times the stored density (grams per cup). -/
theorem claim_c1 (q : ℚ) (hq : 0 < q) (name : String) (info : IngredientInfo)
    (h : lookupS ingredients_db name = some info) :
    convert_to_grams q "cup" name 20 = some (q * info.density) := by
  have hmem := lookupS_mem _ _ _ h
  have hnorm : pyNorm name = name := db_keys_norm _ hmem
  have hcm : countedMatches info "cup" = false := db_counted_cup _ hmem
  simp only [convert_to_grams, norm_cup, hnorm, h, hcm, Bool.false_eq_true,
    if_false, cf_cup]
  congr 1
  ring

theorem claim_c1_witness :
    convert_to_grams 2 "cup" "butter" 20 =
      some (2 * (IngredientInfo.mk 227 (5/100) none).density) :=
  claim_c1 2 (by norm_num) "butter" (IngredientInfo.mk 227 (5/100) none)
    (by decide)

/-- C5: an ingredient whose normalised name is not a key of the table
makes the converter return `none` for every quantity, unit and
temperature; in particular `convert_to_grams 1 "cup" "unobtainium" 20`
is `none`. -/
theorem claim_c5 (q temp : ℚ) (unit ingredient : String)
    (h : lookupS ingredients_db (pyNorm ingredient) = none) :
    convert_to_grams q unit ingredient temp = none ∧
      convert_to_grams 1 "cup" "unobtainium" 20 = none := by
  constructor
  · simp only [convert_to_grams, h]
  · decide

theorem claim_c5_witness :
    convert_to_grams 3 "tbsp" "dragonfruit paste" 25 = none ∧
      convert_to_grams 1 "cup" "unobtainium" 20 = none :=
  claim_c5 3 25 "tbsp" "dragonfruit paste" (by decide)

/-- C6: when an ingredient has a counted unit and the given
(normalised) unit is that unit or that unit with "s" appended, the
converter returns quantity times the temperature-adjusted density
directly, regardless of any volume-unit reading of the same word; in
particular 2 teaspoons of vanilla extract at 20°C is `2 * (42/10)`. -/
theorem claim_c6 (q temp : ℚ) (unit ingredient : String)
    (info : IngredientInfo) (su : String)
    (hing : lookupS ingredients_db (pyNorm ingredient) = some info)
    (hsu : info.unit = some su)
    (hu : pyNorm unit = su ∨ pyNorm unit = su ++ "s") :
    convert_to_grams q unit ingredient temp =
        some (q * (info.density * (1 + info.temp_factor * (temp - 20) / 10))) ∧
      convert_to_grams 2 "teaspoon" "vanilla extract" 20 = some (2 * (42/10)) := by
  constructor
  · have hcm : countedMatches info (pyNorm unit) = true := by
      unfold countedMatches
      rw [hsu]
      rcases hu with h1 | h1 <;> simp [h1]
    simp only [convert_to_grams, hing, hcm, if_true]
  · decide

theorem claim_c6_witness :
    convert_to_grams 4 "each" "eggs" 20 =
        some (4 * ((IngredientInfo.mk 50 (2/100) (some "each")).density *
          (1 + (IngredientInfo.mk 50 (2/100) (some "each")).temp_factor *
            ((20 : ℚ) - 20) / 10))) ∧
      convert_to_grams 2 "teaspoon" "vanilla extract" 20 = some (2 * (42/10)) :=
  claim_c6 4 20 "each" "eggs" (IngredientInfo.mk 50 (2/100) (some "each"))
    "each" (by decide) (by decide) (Or.inl (by decide))

/-- C7: for every known ingredient, quantity and temperature, a mass
unit converts by the fixed constants only: grams pass through, kg
multiplies by 1000, oz by (2835/100), lb by (45359/100) — independent of the
temperature and of the ingredient's density. -/
theorem claim_c7 (q temp : ℚ) (unit ingredient : String)
    (info : IngredientInfo)
    (hing : lookupS ingredients_db (pyNorm ingredient) = some info) :
    (pyNorm unit ∈ ["gram", "g", "grams"] →
      convert_to_grams q unit ingredient temp = some q) ∧
    (pyNorm unit ∈ ["kilogram", "kg", "kilograms"] →
      convert_to_grams q unit ingredient temp = some (q * 1000)) ∧
    (pyNorm unit ∈ ["ounce", "oz", "ounces"] →
      convert_to_grams q unit ingredient temp = some (q * (2835/100))) ∧
    (pyNorm unit ∈ ["pound", "lb", "pounds"] →
      convert_to_grams q unit ingredient temp = some (q * (45359/100))) := by
  have hmem := lookupS_mem _ _ _ hing
  refine ⟨fun hm => ?_, fun hm => ?_, fun hm => ?_, fun hm => ?_⟩ <;>
  · have hmass : pyNorm unit ∈ massUnitNames := by
      simp only [massUnitNames, List.mem_cons, List.not_mem_nil, or_false]
      simp only [List.mem_cons, List.not_mem_nil, or_false] at hm
      tauto
    have hcm := db_counted_mass _ hmem _ hmass
    have hcf := cf_mass_none _ hmass
    rw [convert_mass_eval q temp unit ingredient info hing hcm hcf]
    simp only [List.mem_cons, List.not_mem_nil, or_false] at hm
    rcases hm with h1 | h1 | h1 <;> rw [h1] <;> simp

theorem claim_c7_witness :
    convert_to_grams 7 "g" "butter" 31 = some 7 :=
  (claim_c7 7 31 "g" "butter" (IngredientInfo.mk 227 (5/100) none)
    (by decide)).1 (by decide)

/-- C8: on the volume path the density adjustment is the linear map
`d ↦ density * (1 + temp_factor * d / 10)` of the temperature deviation
`d` from 20°C, so doubling the deviation exactly doubles the deviation
of the returned gram value from its value at 20°C. -/
theorem claim_c8 (q d : ℚ) (unit ingredient : String)
    (info : IngredientInfo) (f : ℚ)
    (hing : lookupS ingredients_db (pyNorm ingredient) = some info)
    (hcm : countedMatches info (pyNorm unit) = false)
    (hcf : lookupS conversion_factors (pyNorm unit) = some f) :
    convert_to_grams q unit ingredient (20 + d) =
        some (q * f * (info.density * (1 + info.temp_factor * d / 10))) ∧
      ∀ g0 g1 g2 : ℚ,
        convert_to_grams q unit ingredient 20 = some g0 →
        convert_to_grams q unit ingredient (20 + d) = some g1 →
        convert_to_grams q unit ingredient (20 + 2 * d) = some g2 →
        g2 - g0 = 2 * (g1 - g0) := by
  have heval : ∀ t : ℚ, convert_to_grams q unit ingredient (20 + t) =
      some (q * f * (info.density * (1 + info.temp_factor * t / 10))) := by
    intro t
    simp only [convert_to_grams, hing, hcm, hcf, Bool.false_eq_true, if_false]
    congr 1
    ring
  refine ⟨heval d, fun g0 g1 g2 h0 h1 h2 => ?_⟩
  have h0' := heval 0
  rw [add_zero] at h0'
  rw [h0'] at h0
  rw [heval d] at h1
  rw [heval (2 * d)] at h2
  obtain rfl := Option.some_injective _ h0.symm
  obtain rfl := Option.some_injective _ h1.symm
  obtain rfl := Option.some_injective _ h2.symm
  ring

theorem claim_c8_witness :
    convert_to_grams 1 "cup" "all-purpose flour" (20 + 5) =
      some (1 * 1 * ((IngredientInfo.mk 120 (2/100) none).density *
        (1 + (IngredientInfo.mk 120 (2/100) none).temp_factor * 5 / 10))) :=
  (claim_c8 1 5 "cup" "all-purpose flour" (IngredientInfo.mk 120 (2/100) none)
    1 (by decide) (by decide) (by decide)).1

/-- C10 (implicit): the ingredient lookup happens before the unit is
examined, so an unknown ingredient yields `none` even for the pure mass
unit "g", for every quantity and temperature. -/
theorem claim_c10 (q temp : ℚ) (ingredient : String)
    (h : lookupS ingredients_db (pyNorm ingredient) = none) :
    convert_to_grams q "g" ingredient temp = none := by
  simp only [convert_to_grams, h]

theorem claim_c10_witness :
    convert_to_grams 5 "g" "moon dust" 22 = none :=
  claim_c10 5 22 "moon dust" (by decide)

/-- C4: the quantity parser maps "1 1/2" to 1.5, "3/4" to 0.75, "2" to
2.0 and fails on "1/0"; in general a mixed number "a b/c" parses to
`a + b/c` and a plain fraction "a/b" to `a/b` (parts numeric, nonzero
denominator). -/
theorem claim_c4 (wa nb dc : List Char) (w n d : ℚ)
    (hwaS : ' ' ∉ wa)
    (hnbF : '/' ∉ nb) (hnbS : ' ' ∉ nb)
    (hdcF : '/' ∉ dc) (hdcS : ' ' ∉ dc)
    (hw : pyFloat wa = some w) (hn : pyFloat nb = some n)
    (hd : pyFloat dc = some d) (hd0 : ¬ d = 0) :
    parse_quantity (wa ++ (' ' :: (nb ++ ('/' :: dc)))) = some (w + n / d) ∧
    parse_quantity (nb ++ ('/' :: dc)) = some (n / d) ∧
    parse_quantity "1 1/2".toList = some (3 / 2) ∧
    parse_quantity "3/4".toList = some (3 / 4) ∧
    parse_quantity "2".toList = some 2 ∧
    parse_quantity "1/0".toList = none := by
  refine ⟨?_, ?_, by decide, by decide, by decide, by decide⟩
  · have hsl : '/' ∈ wa ++ (' ' :: (nb ++ ('/' :: dc))) := by simp
    have hsp : ' ' ∈ wa ++ (' ' :: (nb ++ ('/' :: dc))) := by simp
    simp only [parse_quantity, if_pos hsl, if_pos hsp]
    rw [splitFirstSpace_append wa (nb ++ '/' :: dc) hwaS]
    simp only [splitAllChar_single_sep '/' nb dc hnbF hdcF, hw, hn, hd,
      if_neg hd0]
  · have hsl : '/' ∈ nb ++ ('/' :: dc) := by simp
    have hsp : ¬ ' ' ∈ nb ++ ('/' :: dc) := by
      intro hm
      rcases List.mem_append.mp hm with h1 | h1
      · exact hnbS h1
      · rcases List.mem_cons.mp h1 with h2 | h2
        · exact absurd h2 (by decide)
        · exact hdcS h2
    simp only [parse_quantity, if_pos hsl, if_neg hsp,
      splitAllChar_single_sep '/' nb dc hnbF hdcF, hn, hd, if_neg hd0]

/-- C2 as stated is false: the full matched substring includes the
terminating comma, so the annotation is inserted after the comma and the
output of the example line does not contain
"1 cup all-purpose flour (120.0g), sifted". -/
theorem claim_c2_counterexample :
    strContainsB (convert_recipe_to_grams "1 cup all-purpose flour, sifted" 20)
      "1 cup all-purpose flour (120.0g), sifted" = false := by decide

/-- C2 (amended): annotating "1 cup all-purpose flour, sifted" at 20°C
appends " (120.0g)" immediately after the first occurrence of the full
matched substring "1 cup all-purpose flour," — which includes the
terminating comma — producing "1 cup all-purpose flour, (120.0g) sifted". -/
theorem claim_c2_amended :
    convert_recipe_to_grams "1 cup all-purpose flour, sifted" 20 =
      "1 cup all-purpose flour, (120.0g) sifted" := by decide

/-- C9: a match whose quantity text fails to parse is skipped silently —
the per-match step returns the line unchanged — and annotations from the
other matches of the same line are unaffected, as on
"1/0 cups milk, 2 cups water". -/
theorem claim_c9 (temperature : ℚ) (modified : List Char) (m : RegexMatch)
    (h : parse_quantity (pyStripL m.g1) = none) :
    applyMatch temperature modified m = modified ∧
      convert_recipe_to_grams "1/0 cups milk, 2 cups water" 20 =
        "1/0 cups milk, 2 cups water (474.0g)" := by
  refine ⟨?_, by decide⟩
  simp only [applyMatch, h]

theorem claim_c9_witness :
    applyMatch 20 "keep me".toList
        (RegexMatch.mk "1/0".toList "cups".toList "milk".toList
          "1/0 cups milk,".toList) = "keep me".toList ∧
      convert_recipe_to_grams "1/0 cups milk, 2 cups water" 20 =
        "1/0 cups milk, 2 cups water (474.0g)" :=
  claim_c9 20 "keep me".toList
    (RegexMatch.mk "1/0".toList "cups".toList "milk".toList
      "1/0 cups milk,".toList) (by decide)

theorem claim_c4_witness :
    (parse_quantity ("1".toList ++ (' ' :: ("3".toList ++ ('/' :: "4".toList)))) =
        some (1 + 3 / 4) ∧
      parse_quantity ("3".toList ++ ('/' :: "4".toList)) = some (3 / 4) ∧
      parse_quantity "1 1/2".toList = some (3 / 2) ∧
      parse_quantity "3/4".toList = some (3 / 4) ∧
      parse_quantity "2".toList = some 2 ∧
      parse_quantity "1/0".toList = none) :=
  claim_c4 "1".toList "3".toList "4".toList 1 3 4 (by decide) (by decide)
    (by decide) (by decide) (by decide) (by decide) (by decide) (by decide)
    (by decide)

/-- C3 as stated is false: the annotator strips the whole text first
(baking.py line 182), so the two-line input "\n" comes out as the
one-line output "". -/
theorem claim_c3_counterexample :
    ¬ countLines (convert_recipe_to_grams "\n" 20) = countLines "\n" := by
  decide

/-- C3 (amended): for every input text with no leading or trailing
whitespace (so that the initial `strip` is the identity), the output has
exactly as many lines as the input, each output line is the processed
image of the input line at the same position, and blank input lines
appear unchanged at the same positions. -/
theorem claim_c3_amended (text : String) (temperature : ℚ)
    (h : pyStripL text.toList = text.toList) :
    countLines (convert_recipe_to_grams text temperature) = countLines text ∧
      (∀ (i : ℕ) (hi : i < (splitNl text.toList).length)
        (hi' : i <
          (splitNl (convert_recipe_to_grams text temperature).toList).length),
        (splitNl (convert_recipe_to_grams text temperature).toList).get
            ⟨i, hi'⟩ =
          procLine temperature ((splitNl text.toList).get ⟨i, hi⟩)) ∧
      ∀ (i : ℕ) (hi : i < (splitNl text.toList).length)
        (hi' : i <
          (splitNl (convert_recipe_to_grams text temperature).toList).length),
        pyStripL ((splitNl text.toList).get ⟨i, hi⟩) = [] →
        (splitNl (convert_recipe_to_grams text temperature).toList).get
            ⟨i, hi'⟩ =
          (splitNl text.toList).get ⟨i, hi⟩ := by
  have hlines := recipe_lines text temperature h
  have hget : ∀ (i : ℕ) (hi : i < (splitNl text.toList).length)
      (hi' : i <
        (splitNl (convert_recipe_to_grams text temperature).toList).length),
      (splitNl (convert_recipe_to_grams text temperature).toList).get
          ⟨i, hi'⟩ =
        procLine temperature ((splitNl text.toList).get ⟨i, hi⟩) := by
    intro i hi hi'
    have := List.get_of_eq hlines ⟨i, hi'⟩
    rw [this]
    exact List.get_map (procLine temperature)
  refine ⟨?_, hget, ?_⟩
  · unfold countLines
    rw [hlines, List.length_map]
  · intro i hi hi' hblank
    rw [hget i hi hi']
    unfold procLine
    rw [if_pos hblank]

theorem claim_c3_amended_witness :
    countLines (convert_recipe_to_grams "x\n\ny" 20) = countLines "x\n\ny" :=
  (claim_c3_amended "x\n\ny" 20 (by decide)).1

end Baking
